import Mathlib

/-!
Verification of the gpass graphical-password authentication core.

This file gives a shallow embedding, in Lean, of the core of the gpass
repository: the graphical-password codec (`convertGraphicalPasswordToString`,
`HashGraphicalPassword`, `CheckGraphicalPasswordHash` from the auth package)
and the stateful `SecureAuthManager` (`AuthenticateWithProtection`,
`InitiatePasswordReset`, `ValidateResetToken`).  External effects that the Go
code consumes (the MongoDB-backed `AuthenticateUser`, `email.SendEmail`,
`crypto/rand`, the wall clock) are passed in as explicit parameters, and the
in-memory maps of the manager become total functions out of usernames.
Machine integers become `Int`/`Nat` (no arithmetic here comes near an
overflow boundary: counters are only incremented by one from zero).
-/

namespace GPass

/-! ## The graphical-password codec -/

/-- The decimal digit character for `d` (for `d < 10` this is the character
`strconv.Itoa` emits for that digit: code point `48 + d`). -/
def digitChar (d : Nat) : Char := Char.ofNat (48 + d)

/-- The list of decimal digit characters of `n`, most significant first.
This is the digit loop of Go's `strconv.Itoa` on a non-negative value:
repeatedly divide by ten and emit `n % 10` as the last character. -/
def natToChars (n : Nat) : List Char :=
  if _h : n < 10 then [digitChar n]
  else natToChars (n / 10) ++ [digitChar (n % 10)]
termination_by n
decreasing_by
  simp_wf
  omega

/-- Go's `strconv.Itoa` as a character list: a leading `'-'` for negative
values, then the decimal digits of the absolute value. -/
def intToChars (n : Int) : List Char :=
  if n < 0 then '-' :: natToChars n.natAbs else natToChars n.natAbs

/-- auth.convertGraphicalPasswordToString: converts a slice of integers into a
dash-separated string, so `[1, 3, 5]` becomes `1-3-5`.  The Go code maps
`strconv.Itoa` over the slice and applies `strings.Join(strs, "-")`; here the
join is `List.intercalate` over the character lists, packed into a `String`. -/
def convertGraphicalPasswordToString (gp : List Int) : String :=
  String.mk (List.intercalate ['-'] (gp.map intToChars))

/-- Modelled from the spec: the digest produced by the bcrypt primitive.  The
bcrypt library (golang.org/x/crypto/bcrypt) is not part of this repository's
sources; the spec describes it as a slow, salted, one-way hash whose
comparison succeeds exactly when the digest was produced from an equal
encoding.  The model records the cost, the salt and the exact password the
digest was generated from, which realises that comparison behaviour
(ideal collision-freeness). -/
structure BcryptDigest where
  cost : Nat
  salt : Nat
  key : String
deriving DecidableEq

/-- Modelled from the spec: `bcrypt.GenerateFromPassword` at a fixed cost.
The spec says hashing fails only on entropy/resource exhaustion of the
primitive, so the model makes generation total. -/
def bcryptGenerateFromPassword (cost salt : Nat) (password : String) : BcryptDigest :=
  ⟨cost, salt, password⟩

/-- Modelled from the spec: `bcrypt.CompareHashAndPassword`.  Returns `none`
on a match and an error message otherwise. -/
def bcryptCompareHashAndPassword (hashed : BcryptDigest) (password : String) : Option String :=
  if hashed.key = password then none
  else some "crypto/bcrypt: hashedPassword is not the hash of the given password"

/-- auth.HashGraphicalPassword: converts the graphical password to its
canonical string and hashes it with bcrypt at the default cost (10).  The
salt drawn by bcrypt is passed explicitly. -/
def HashGraphicalPassword (salt : Nat) (gp : List Int) : BcryptDigest :=
  bcryptGenerateFromPassword 10 salt (convertGraphicalPasswordToString gp)

/-- auth.CheckGraphicalPasswordHash: compares the graphical password with the
stored digest; `none` when it matches, a wrapped error otherwise. -/
def CheckGraphicalPasswordHash (gp : List Int) (hashed : BcryptDigest) : Option String :=
  match bcryptCompareHashAndPassword hashed (convertGraphicalPasswordToString gp) with
  | some e => some ("graphical password comparison failed: " ++ e)
  | none => none

/-! ## The SecureAuthManager -/

/-- auth.resetTokenInfo: a reset token and its expiration time.  Instants are
modelled as natural numbers; `t.Before(u)` is `t < u` and `t.After(u)` is
`t > u`. -/
structure ResetTokenInfo where
  token : String
  expiresAt : Nat
deriving DecidableEq

/-- The error values that `AuthenticateWithProtection` can surface: the
blocked-account error it builds itself (carrying the unblock time), the two
sentinel errors of `AuthenticateUser`, and any other underlying failure. -/
inductive AuthError where
  | blocked (unblockTime : Nat)
  | userNotFound
  | invalidGraphicalPassword
  | authFailure (msg : String)
deriving DecidableEq

/-- auth.SecureAuthManager.  The Go maps become total functions: a
`map[string]int` read misses as the zero value, so `failedAttempts` is
`String → Int` with absence represented by `0`; the two maps whose presence
is tested become `Option`-valued functions. -/
structure SecureAuthManager where
  failedAttempts : String → Int
  blockUntil : String → Option Nat
  resetTokens : String → Option ResetTokenInfo
  attemptThreshold : Int
  blockDuration : Nat
  tokenDuration : Nat

/-- auth.NewSecureAuthManager: empty maps, the given settings. -/
def NewSecureAuthManager (threshold : Int) (blockDuration tokenDuration : Nat) :
    SecureAuthManager :=
  ⟨fun _ => 0, fun _ => none, fun _ => none, threshold, blockDuration, tokenDuration⟩

/-- Point update of a total map (`m[k] = v` on a Go map with a zero value). -/
def mapSet {α : Type} (f : String → α) (k : String) (v : α) : String → α :=
  fun u => if u = k then v else f u

/-- Point removal from an optional map (Go's `delete(m, k)`). -/
def mapDelete {α : Type} (f : String → Option α) (k : String) : String → Option α :=
  fun u => if u = k then none else f u

/-- The fast-fail test at the top of `AuthenticateWithProtection`: the stored
unblock time, when an entry exists and `now` is still before it. -/
def fastFailTime (m : SecureAuthManager) (username : String) (now : Nat) : Option Nat :=
  match m.blockUntil username with
  | some unblockTime => if now < unblockTime then some unblockTime else none
  | none => none

/-- The full observable outcome of one `AuthenticateWithProtection` call: the
returned pair, the manager state after the call, and whether an alert email
goroutine was dispatched. -/
structure ProtectOutcome where
  ok : Bool
  err : Option AuthError
  manager : SecureAuthManager
  alertDispatched : Bool

/-- auth.SecureAuthManager.AuthenticateWithProtection.  The delegated
`AuthenticateUser(username, graphicalPassword)` call touches only the
database, so its result is a parameter `authUser`; `now` is the clock reading
(the code reads the clock twice, at the block check and at the lockout
computation — both instants fall inside one call and are modelled as equal).
Faithful to the source: a blocked account fast-fails with the blocked error
and no state change; a failed delegation increments the counter and, when the
new count reaches the threshold (`>=`), writes `blockUntil` and dispatches
the alert asynchronously, returning the original error; success resets the
counter to zero and deletes the `blockUntil` entry. -/
def AuthenticateWithProtection (m : SecureAuthManager) (username : String)
    (now : Nat) (authUser : Bool × Option AuthError) : ProtectOutcome :=
  match fastFailTime m username now with
  | some unblockTime => ⟨false, some (.blocked unblockTime), m, false⟩
  | none =>
    let ok := authUser.1
    let err := authUser.2
    if err.isSome || !ok then
      let attempts := m.failedAttempts username + 1
      let m1 := { m with failedAttempts := mapSet m.failedAttempts username attempts }
      if attempts ≥ m.attemptThreshold then
        let m2 := { m1 with blockUntil := mapSet m1.blockUntil username (some (now + m.blockDuration)) }
        ⟨false, err, m2, true⟩
      else
        ⟨false, err, m1, false⟩
    else
      ⟨true, none,
        { m with failedAttempts := mapSet m.failedAttempts username 0,
                 blockUntil := mapDelete m.blockUntil username }, false⟩

/-- auth.SecureAuthManager.InitiatePasswordReset.  The crypto/rand outcome of
`generateSecureToken(32)` is the parameter `genToken`, and the outcome of the
synchronous `email.SendEmail` is `sendResult` (`none` is success, `some e` the
error message).  Faithful to the source: a generation failure returns early
with a wrapped error; otherwise the token is stored under the username with
expiry `now + tokenDuration`, replacing any previous entry, and only then is
the email sent — a send failure returns a wrapped error with the token left
stored, and the token value is returned exactly when the send succeeds. -/
def InitiatePasswordReset (m : SecureAuthManager) (username : String) (now : Nat)
    (genToken : Except String String) (sendResult : Option String) :
    Except String String × SecureAuthManager :=
  match genToken with
  | .error e => (.error ("failed to generate reset token: " ++ e), m)
  | .ok token =>
    let m1 := { m with resetTokens := mapSet m.resetTokens username (some ⟨token, now + m.tokenDuration⟩) }
    match sendResult with
    | some e => (.error ("failed to send reset email: " ++ e), m1)
    | none => (.ok token, m1)

/-- auth.SecureAuthManager.ValidateResetToken.  Faithful to the source: when
no entry is stored, or `now` is strictly after the stored expiry
(`time.Now().After(info.expiresAt)`), the entry is deleted and the call
returns false; otherwise it returns whether the supplied token equals the
stored one. -/
def ValidateResetToken (m : SecureAuthManager) (username token : String) (now : Nat) :
    Bool × SecureAuthManager :=
  match m.resetTokens username with
  | none => (false, { m with resetTokens := mapDelete m.resetTokens username })
  | some info =>
    if now > info.expiresAt then
      (false, { m with resetTokens := mapDelete m.resetTokens username })
    else
      (info.token == token, m)

/-! ## An interleaving model of the lockout race

`AuthenticateWithProtection` takes the manager's mutex twice on the failure
path: once for the block check at the top of the call, and once for the
increment / threshold-compare / lock sequence after `AuthenticateUser`
returns.  For the concurrent scenario of the spec — `threshold`-many
simultaneous calls for one username, all of whose delegated authentications
fail, all within one block window (so any lockout set during the experiment
is active for every later check) — each call is two atomic steps, one per
critical section, and a schedule is any interleaving of these steps. -/

/-- The shared state of the race on one username, together with the progress
counters of the concurrent calls: `pending` calls have not yet run their
block check, `ready` calls have passed the check but not yet run their
failure update, `blockedCalls` returned the blocked error at the check.
`failedCount` is the manager's failed-attempt counter for the username,
`locked` whether `blockUntil` holds an active lockout, and `lockEvents` how
many times a call has executed the `blockUntil` assignment. -/
structure RaceState where
  pending : Nat
  ready : Nat
  blockedCalls : Nat
  failedCount : Nat
  locked : Bool
  lockEvents : Nat
deriving DecidableEq

/-- The initial race state: `n` concurrent calls, fresh username entry. -/
def RaceState.init (n : Nat) : RaceState := ⟨n, 0, 0, 0, false, 0⟩

/-- One atomic critical section of one of the concurrent calls, exactly as the
code runs them under the mutex: a block check that observes an active lockout
ends that call with the blocked error; a block check that observes no active
lockout lets the call proceed to its delegated authentication; a failure
update increments the counter and, when the new count reaches the threshold
(`>=`), performs the lock assignment. -/
inductive RaceStep (threshold : Nat) : RaceState → RaceState → Prop where
  | checkBlocked (s : RaceState) (hp : 0 < s.pending) (hl : s.locked = true) :
      RaceStep threshold s
        { s with pending := s.pending - 1, blockedCalls := s.blockedCalls + 1 }
  | checkClear (s : RaceState) (hp : 0 < s.pending) (hl : s.locked = false) :
      RaceStep threshold s
        { s with pending := s.pending - 1, ready := s.ready + 1 }
  | failUpdate (s : RaceState) (hr : 0 < s.ready) :
      RaceStep threshold s
        { s with ready := s.ready - 1,
                 failedCount := s.failedCount + 1,
                 locked := s.locked || decide (threshold ≤ s.failedCount + 1),
                 lockEvents := s.lockEvents + if threshold ≤ s.failedCount + 1 then 1 else 0 }

/-- The inductive invariant of the race with `threshold`-many calls: the calls
are conserved (each is pending, ready, blocked, or done — and `failedCount`
counts exactly the done ones), the lockout is set exactly from the threshold
on, no call ever gets blocked at its check, and the lock assignment has run
exactly once as soon as the count has reached the threshold. -/
def RaceInv (threshold : Nat) (s : RaceState) : Prop :=
  s.failedCount + s.pending + s.ready + s.blockedCalls = threshold ∧
  (s.locked = true ↔ threshold ≤ s.failedCount) ∧
  s.blockedCalls = 0 ∧
  s.lockEvents = if threshold ≤ s.failedCount then 1 else 0

/-! ## Concrete example states used to settle individual claims -/

/-- A manager with an active lockout on "alice" until instant 100. -/
def lockedManagerEx : SecureAuthManager :=
  { NewSecureAuthManager 3 10 20 with
      blockUntil := mapSet (fun _ => none) "alice" (some 100) }

/-- A manager (threshold 2, block duration 5) whose lockout on "alice"
expired at instant 10, with the failed-attempt count still at 2: exactly the
state the code is in after a lockout once the block window has passed. -/
def expiredLockEx : SecureAuthManager :=
  { NewSecureAuthManager 2 5 20 with
      failedAttempts := mapSet (fun _ => 0) "alice" 2,
      blockUntil := mapSet (fun _ => none) "alice" (some 10) }

/-- A manager holding a reset token for "alice" that expires at instant 100. -/
def tokenManagerEx : SecureAuthManager :=
  { NewSecureAuthManager 3 5 20 with
      resetTokens := mapSet (fun _ => none) "alice" (some ⟨"tok", 100⟩) }

/-! ## Theorems about the manager's per-call behaviour -/

/-- C1: for every username, when `AuthenticateWithProtection` is not
fast-failed by an active lockout and the delegated authentication fails, the
failed-attempt count for that username is incremented by one; the lockout
entry is set to `now + blockDuration` exactly when the post-increment count
reaches the threshold (`>=`) and is left unchanged at any lower count; and
the call returns the original authentication failure, not a lockout error. -/
theorem authWithProtection_failure_spec (m : SecureAuthManager)
    (username : String) (now : Nat) (ok : Bool) (err : Option AuthError)
    (hnb : fastFailTime m username now = none)
    (hfail : err.isSome = true ∨ ok = false) :
    (AuthenticateWithProtection m username now (ok, err)).manager.failedAttempts username
        = m.failedAttempts username + 1 ∧
    (m.attemptThreshold ≤ m.failedAttempts username + 1 →
      (AuthenticateWithProtection m username now (ok, err)).manager.blockUntil username
          = some (now + m.blockDuration)) ∧
    (m.failedAttempts username + 1 < m.attemptThreshold →
      (AuthenticateWithProtection m username now (ok, err)).manager.blockUntil username
          = m.blockUntil username) ∧
    (AuthenticateWithProtection m username now (ok, err)).ok = false ∧
    (AuthenticateWithProtection m username now (ok, err)).err = err := by
  have hcond : (err.isSome || !ok) = true := by
    rcases hfail with h | h
    · simp [h]
    · simp [h]
  by_cases hth : m.attemptThreshold ≤ m.failedAttempts username + 1
  · refine ⟨?_, fun _ => ?_, fun hlt => absurd hth (by omega), ?_, ?_⟩ <;>
      simp [AuthenticateWithProtection, hnb, hcond, hth, ge_iff_le, mapSet]
  · refine ⟨?_, fun hge => absurd hge hth, fun _ => ?_, ?_, ?_⟩ <;>
      simp [AuthenticateWithProtection, hnb, hcond, hth, ge_iff_le, mapSet]

/-- Witness for C1: a fresh manager with threshold 1; a single failed attempt
for "alice" at instant 5 increments the count to 1 and locks until 15. -/
theorem authWithProtection_failure_spec_witness :
    fastFailTime (NewSecureAuthManager 1 10 20) "alice" 5 = none ∧
    (AuthenticateWithProtection (NewSecureAuthManager 1 10 20) "alice" 5
        (false, some AuthError.userNotFound)).manager.failedAttempts "alice" = 0 + 1 ∧
    (AuthenticateWithProtection (NewSecureAuthManager 1 10 20) "alice" 5
        (false, some AuthError.userNotFound)).manager.blockUntil "alice" = some 15 := by
  have h := authWithProtection_failure_spec (NewSecureAuthManager 1 10 20) "alice" 5 false
      (some AuthError.userNotFound) rfl (Or.inr rfl)
  exact ⟨rfl, h.1, h.2.1 (by norm_num [NewSecureAuthManager])⟩

/-- C2: for every username whose lockout entry holds an unblock time strictly
after `now`, `AuthenticateWithProtection` returns the blocked failure
immediately, for any result the delegated authentication would have had, and
the manager state is returned unchanged. -/
theorem authWithProtection_blocked_fast_fail (m : SecureAuthManager)
    (username : String) (now unblockTime : Nat) (authUser : Bool × Option AuthError)
    (hb : m.blockUntil username = some unblockTime) (hlt : now < unblockTime) :
    AuthenticateWithProtection m username now authUser =
      ⟨false, some (.blocked unblockTime), m, false⟩ := by
  have hf : fastFailTime m username now = some unblockTime := by
    simp [fastFailTime, hb, hlt]
  simp [AuthenticateWithProtection, hf]

/-- Witness for C2: a manager blocking "alice" until 100, called at 50 with a
would-be-successful delegated authentication: the call returns the blocked
error and the failed-attempt count is unchanged. -/
theorem authWithProtection_blocked_fast_fail_witness :
    lockedManagerEx.blockUntil "alice" = some 100 ∧ 50 < 100 ∧
    (AuthenticateWithProtection lockedManagerEx "alice" 50 (true, none)).err
        = some (.blocked 100) ∧
    (AuthenticateWithProtection lockedManagerEx "alice" 50 (true, none)).manager.failedAttempts
        "alice" = lockedManagerEx.failedAttempts "alice" := by
  have h := authWithProtection_blocked_fast_fail lockedManagerEx "alice" 50 100 (true, none)
      (by simp [lockedManagerEx, NewSecureAuthManager, mapSet]) (by norm_num)
  rw [h]
  exact ⟨by simp [lockedManagerEx, NewSecureAuthManager, mapSet], by norm_num, rfl, rfl⟩

/-- Counterexample to C3 as stated: after the lockout on "alice" (threshold 2,
count at 2, lockout expired at instant 10) a single further failed attempt at
instant 11 does not restart the count from zero — it increments it to 3 and
immediately re-locks the account until 16. -/
theorem relock_after_expiry_cex :
    (AuthenticateWithProtection expiredLockEx "alice" 11
        (false, some AuthError.invalidGraphicalPassword)).manager.failedAttempts "alice" = 3 ∧
    (AuthenticateWithProtection expiredLockEx "alice" 11
        (false, some AuthError.invalidGraphicalPassword)).manager.blockUntil "alice"
        = some 16 := by
  constructor <;> rfl

/-- C3 (amended): the failed-attempt count equals the number of consecutive
failed delegated attempts since the last successful authentication (blocked
fast-fails are not counted); a successful call resets the count to zero and
deletes the lockout entry; but lockout expiry clears nothing — both the count
and the lockout entry persist, so a failed attempt after an expired lockout
increments the old count and, that count being at least the threshold,
immediately re-locks the account. -/
theorem protection_state_after_success_and_expiry (m : SecureAuthManager)
    (username : String) (now unblockTime : Nat) (ok : Bool) (err : Option AuthError)
    (hb : m.blockUntil username = some unblockTime) (hexp : unblockTime ≤ now) :
    ((AuthenticateWithProtection m username now (true, none)).manager.failedAttempts username
        = 0 ∧
     (AuthenticateWithProtection m username now (true, none)).manager.blockUntil username
        = none) ∧
    (err.isSome = true ∨ ok = false →
      (AuthenticateWithProtection m username now (ok, err)).manager.failedAttempts username
          = m.failedAttempts username + 1 ∧
      (m.attemptThreshold ≤ m.failedAttempts username + 1 →
        (AuthenticateWithProtection m username now (ok, err)).manager.blockUntil username
            = some (now + m.blockDuration))) := by
  have hnb : fastFailTime m username now = none := by
    simp [fastFailTime, hb]
    omega
  constructor
  · constructor <;> simp [AuthenticateWithProtection, hnb, mapSet, mapDelete]
  · intro hfail
    have h := authWithProtection_failure_spec m username now ok err hnb hfail
    exact ⟨h.1, h.2.1⟩

/-- Witness for C3 (amended), on the expired-lockout example state: a success
resets the count and clears the lockout; a failure moves the count from 2 to
3 and re-locks until 16. -/
theorem protection_state_after_success_and_expiry_witness :
    expiredLockEx.blockUntil "alice" = some 10 ∧ 10 ≤ 11 ∧
    (AuthenticateWithProtection expiredLockEx "alice" 11 (true, none)).manager.failedAttempts
        "alice" = 0 ∧
    (AuthenticateWithProtection expiredLockEx "alice" 11
        (false, some AuthError.invalidGraphicalPassword)).manager.failedAttempts "alice"
        = 2 + 1 := by
  have h := protection_state_after_success_and_expiry expiredLockEx "alice" 11 10 false
      (some AuthError.invalidGraphicalPassword)
      (by simp [expiredLockEx, NewSecureAuthManager, mapSet]) (by norm_num)
  exact ⟨by simp [expiredLockEx, NewSecureAuthManager, mapSet], by norm_num, h.1.1,
    (h.2 (Or.inl rfl)).1⟩

/-- Counterexample to C4 as stated: a token stored for "alice" with expiry
instant 100, validated with the matching token string exactly at instant 100,
is reported valid — the code treats the boundary instant as not yet expired
(`time.Now().After` is strict), where the claim demands it count as expired. -/
theorem validate_at_expiry_instant_cex :
    (ValidateResetToken tokenManagerEx "alice" "tok" 100).1 = true := by
  rfl

/-- C4 (amended): `ValidateResetToken` never returns valid strictly after the
stored expiry instant — if `now` is strictly greater than `expiresAt` the
call returns invalid regardless of whether the supplied token matches; at
`now` up to and including the expiry instant the result is exactly the token
comparison. -/
theorem validateResetToken_expiry_boundary (m : SecureAuthManager)
    (username token : String) (now : Nat) (info : ResetTokenInfo)
    (hstored : m.resetTokens username = some info) :
    (info.expiresAt < now → (ValidateResetToken m username token now).1 = false) ∧
    (now ≤ info.expiresAt →
      (ValidateResetToken m username token now).1 = (info.token == token)) := by
  constructor
  · intro hlt
    simp [ValidateResetToken, hstored, hlt]
  · intro hle
    have : ¬ info.expiresAt < now := by omega
    simp [ValidateResetToken, hstored, this]

/-- Witness for C4 (amended): on the example token state (expiry 100), a
matching validation at 101 fails and a matching validation at 100 succeeds. -/
theorem validateResetToken_expiry_boundary_witness :
    tokenManagerEx.resetTokens "alice" = some ⟨"tok", 100⟩ ∧
    (ValidateResetToken tokenManagerEx "alice" "tok" 101).1 = false ∧
    (ValidateResetToken tokenManagerEx "alice" "tok" 100).1 = ("tok" == "tok") := by
  have h1 := validateResetToken_expiry_boundary tokenManagerEx "alice" "tok" 101 ⟨"tok", 100⟩
      (by simp [tokenManagerEx, NewSecureAuthManager, mapSet])
  have h2 := validateResetToken_expiry_boundary tokenManagerEx "alice" "tok" 100 ⟨"tok", 100⟩
      (by simp [tokenManagerEx, NewSecureAuthManager, mapSet])
  exact ⟨by simp [tokenManagerEx, NewSecureAuthManager, mapSet], h1.1 (by norm_num),
    h2.2 (by norm_num)⟩

/-- Validation against a username with no stored entry returns invalid. -/
theorem validateResetToken_fst_of_none (m : SecureAuthManager)
    (username token : String) (now : Nat) (h : m.resetTokens username = none) :
    (ValidateResetToken m username token now).1 = false := by
  simp [ValidateResetToken, h]

/-- C5: validating against a missing or expired entry deletes the entry for
that username and returns invalid, so a second validation — with any token,
at any time — also returns invalid; and in all cases `ValidateResetToken`
never creates an entry: a username with no stored token before the call has
none after it. -/
theorem validateResetToken_cleanup (m : SecureAuthManager)
    (username token : String) (now : Nat) :
    ((m.resetTokens username = none ∨
        ∃ info, m.resetTokens username = some info ∧ info.expiresAt < now) →
      (ValidateResetToken m username token now).1 = false ∧
      (ValidateResetToken m username token now).2.resetTokens username = none ∧
      ∀ token2 now2,
        (ValidateResetToken (ValidateResetToken m username token now).2 username token2
          now2).1 = false) ∧
    (∀ u, m.resetTokens u = none →
      (ValidateResetToken m username token now).2.resetTokens u = none) := by
  constructor
  · intro hdead
    have hgone : (ValidateResetToken m username token now).1 = false ∧
        (ValidateResetToken m username token now).2.resetTokens username = none := by
      rcases hdead with hnone | ⟨info, hsome, hexp⟩
      · simp [ValidateResetToken, hnone, mapDelete]
      · simp [ValidateResetToken, hsome, hexp, mapDelete]
    exact ⟨hgone.1, hgone.2, fun token2 now2 =>
      validateResetToken_fst_of_none _ _ _ _ hgone.2⟩
  · intro u hu
    rcases hm : m.resetTokens username with _ | info
    · simp [ValidateResetToken, hm, mapDelete, hu]
    · by_cases hexp : info.expiresAt < now
      · simp [ValidateResetToken, hm, hexp, mapDelete, hu]
      · simp [ValidateResetToken, hm, hexp, hu]

/-- Witness for C5: on the example token state (expiry 100), validating the
correct token at 101 returns invalid and removes the entry, a re-validation
with the same token returns invalid, and the call creates no entry for an
absent username. -/
theorem validateResetToken_cleanup_witness :
    (∃ info, tokenManagerEx.resetTokens "alice" = some info ∧ info.expiresAt < 101) ∧
    (ValidateResetToken tokenManagerEx "alice" "tok" 101).1 = false ∧
    (ValidateResetToken tokenManagerEx "alice" "tok" 101).2.resetTokens "alice" = none ∧
    (ValidateResetToken (ValidateResetToken tokenManagerEx "alice" "tok" 101).2 "alice"
        "tok" 102).1 = false ∧
    (ValidateResetToken tokenManagerEx "alice" "tok" 101).2.resetTokens "bob" = none := by
  have hdead : tokenManagerEx.resetTokens "alice" = some ⟨"tok", 100⟩ :=
    by simp [tokenManagerEx, NewSecureAuthManager, mapSet]
  have h := validateResetToken_cleanup tokenManagerEx "alice" "tok" 101
  have h1 := h.1 (Or.inr ⟨⟨"tok", 100⟩, hdead, by norm_num⟩)
  exact ⟨⟨⟨"tok", 100⟩, hdead, by norm_num⟩, h1.1, h1.2.1, h1.2.2 "tok" 102,
    h.2 "bob" (by simp [tokenManagerEx, NewSecureAuthManager, mapSet])⟩

/-- C6: when token generation succeeds, `InitiatePasswordReset` stores the
token under the username with expiry `now + tokenDuration` (replacing any
previous entry) whether or not the notification send succeeds; a failed send
makes the call return an error (no token value) while the stored token
remains; and the call returns the token value exactly when the send
succeeds. -/
theorem initiatePasswordReset_spec (m : SecureAuthManager) (username : String)
    (now : Nat) (token : String) (sendResult : Option String) :
    (InitiatePasswordReset m username now (.ok token) sendResult).2.resetTokens username
        = some ⟨token, now + m.tokenDuration⟩ ∧
    (∀ e, sendResult = some e →
      (InitiatePasswordReset m username now (.ok token) sendResult).1
          = .error ("failed to send reset email: " ++ e)) ∧
    ((InitiatePasswordReset m username now (.ok token) sendResult).1 = .ok token ↔
      sendResult = none) := by
  rcases sendResult with _ | e
  · refine ⟨by simp [InitiatePasswordReset, mapSet], fun e h => by simp at h, by simp [InitiatePasswordReset]⟩
  · refine ⟨by simp [InitiatePasswordReset, mapSet], fun e2 h => ?_, by simp [InitiatePasswordReset]⟩
    obtain rfl : e = e2 := by simpa using h
    simp [InitiatePasswordReset]

/-- Witness for C6: a reset for "alice" at instant 7 (token duration 20)
whose send fails stores the token with expiry 27 and returns an error, and
the same reset with a successful send returns the token. -/
theorem initiatePasswordReset_spec_witness :
    (InitiatePasswordReset (NewSecureAuthManager 3 5 20) "alice" 7 (.ok "tok")
        (some "boom")).2.resetTokens "alice" = some ⟨"tok", 27⟩ ∧
    (InitiatePasswordReset (NewSecureAuthManager 3 5 20) "alice" 7 (.ok "tok")
        (some "boom")).1 = .error ("failed to send reset email: " ++ "boom") ∧
    ((InitiatePasswordReset (NewSecureAuthManager 3 5 20) "alice" 7 (.ok "tok") none).1
        = .ok "tok") := by
  have hfailed := initiatePasswordReset_spec (NewSecureAuthManager 3 5 20) "alice" 7 "tok"
      (some "boom")
  have hok := initiatePasswordReset_spec (NewSecureAuthManager 3 5 20) "alice" 7 "tok" none
  exact ⟨hfailed.1, hfailed.2.1 "boom" rfl, hok.2.2.mpr rfl⟩

/-! ## Theorems about the graphical-password codec -/

/-- Branch equation of `natToChars` for a single digit. -/
theorem natToChars_lt (n : Nat) (h : n < 10) : natToChars n = [digitChar n] := by
  rw [natToChars]
  simp [h]

/-- Branch equation of `natToChars` for a multi-digit value. -/
theorem natToChars_ge (n : Nat) (h : ¬ n < 10) :
    natToChars n = natToChars (n / 10) ++ [digitChar (n % 10)] := by
  rw [natToChars]
  simp [h]

/-- The decimal digit list of a natural number is never empty. -/
theorem natToChars_ne_nil (n : Nat) : natToChars n ≠ [] := by
  by_cases h : n < 10
  · rw [natToChars_lt n h]
    simp
  · rw [natToChars_ge n h]
    simp

/-- Digit characters of distinct digits are distinct. -/
theorem digitChar_injOn : ∀ d < 10, ∀ e < 10, digitChar d = digitChar e → d = e := by
  decide

/-- No digit character is the dash separator. -/
theorem digitChar_ne_dash : ∀ d < 10, digitChar d ≠ '-' := by
  decide

/-- The dash separator never occurs inside the decimal digits of a natural
number. -/
theorem dash_not_mem_natToChars (n : Nat) : '-' ∉ natToChars n := by
  induction n using Nat.strong_induction_on with
  | _ n ih =>
    by_cases h : n < 10
    · rw [natToChars_lt n h]
      simp only [List.mem_singleton]
      intro hc
      exact digitChar_ne_dash n h hc.symm
    · rw [natToChars_ge n h]
      intro hc
      rcases List.mem_append.mp hc with hc1 | hc2
      · exact ih (n / 10) (by omega) hc1
      · simp only [List.mem_singleton] at hc2
        exact digitChar_ne_dash (n % 10) (by omega) hc2.symm

/-- Decimal digit lists are injective: equal digit lists come from equal
natural numbers. -/
theorem natToChars_injective : ∀ m n : Nat, natToChars m = natToChars n → m = n := by
  intro m
  induction m using Nat.strong_induction_on with
  | _ m ih =>
    intro n h
    by_cases hm : m < 10 <;> by_cases hn : n < 10
    · rw [natToChars_lt m hm, natToChars_lt n hn] at h
      simp only [List.cons.injEq, and_true] at h
      exact digitChar_injOn m hm n hn h
    · rw [natToChars_lt m hm, natToChars_ge n hn] at h
      rcases hcons : natToChars (n / 10) with _ | ⟨a, t⟩
      · exact absurd hcons (natToChars_ne_nil _)
      · rw [hcons] at h
        simp at h
    · rw [natToChars_ge m hm, natToChars_lt n hn] at h
      rcases hcons : natToChars (m / 10) with _ | ⟨a, t⟩
      · exact absurd hcons (natToChars_ne_nil _)
      · rw [hcons] at h
        simp at h
    · rw [natToChars_ge m hm, natToChars_ge n hn] at h
      obtain ⟨h1, h2⟩ := List.append_inj' h rfl
      have hdiv := ih (m / 10) (by omega) (n / 10) h1
      simp only [List.cons.injEq, and_true] at h2
      have hmod := digitChar_injOn (m % 10) (by omega) (n % 10) (by omega) h2
      omega

/-- On a non-negative integer, `intToChars` is the plain digit list. -/
theorem intToChars_nonneg (n : Int) (h : 0 ≤ n) : intToChars n = natToChars n.natAbs := by
  rw [intToChars, if_neg (by omega)]

/-- Joining dash-free non-empty chunks with a dash is injective. -/
theorem intercalate_dash_injective (l1 l2 : List (List Char))
    (h1 : ∀ x ∈ l1, x ≠ [] ∧ '-' ∉ x) (h2 : ∀ x ∈ l2, x ≠ [] ∧ '-' ∉ x)
    (h : List.intercalate ['-'] l1 = List.intercalate ['-'] l2) : l1 = l2 := by
  rcases l1 with _ | ⟨a, t⟩
  · rcases l2 with _ | ⟨b, u⟩
    · rfl
    · exfalso
      rcases u with _ | ⟨c, v⟩
      · simp [List.intercalate] at h
        exact (h2 b (by simp)).1 h
      · simp [List.intercalate] at h
  · rcases l2 with _ | ⟨b, u⟩
    · exfalso
      rcases t with _ | ⟨c, v⟩
      · simp [List.intercalate] at h
        exact (h1 a (by simp)).1 h
      · simp [List.intercalate] at h
    · have e1 := List.splitOn_intercalate (a :: t) '-' (fun l hl => (h1 l hl).2)
        (List.cons_ne_nil a t)
      have e2 := List.splitOn_intercalate (b :: u) '-' (fun l hl => (h2 l hl).2)
        (List.cons_ne_nil b u)
      rw [← e1, ← e2, h]

/-- The canonical encoding is injective on sequences of non-negative
integers (helper carrying the full proof). -/
theorem convert_injective_of_nonneg (gp1 gp2 : List Int)
    (h1 : ∀ x ∈ gp1, 0 ≤ x) (h2 : ∀ x ∈ gp2, 0 ≤ x) (hne : gp1 ≠ gp2) :
    convertGraphicalPasswordToString gp1 ≠ convertGraphicalPasswordToString gp2 := by
  intro h
  apply hne
  have hdata : List.intercalate ['-'] (gp1.map intToChars)
      = List.intercalate ['-'] (gp2.map intToChars) := by
    injection h
  have hchunks : ∀ (gp : List Int), (∀ x ∈ gp, 0 ≤ x) →
      ∀ x ∈ gp.map intToChars, x ≠ [] ∧ '-' ∉ x := by
    intro gp hgp x hx
    rcases List.mem_map.mp hx with ⟨n, hn, rfl⟩
    rw [intToChars_nonneg n (hgp n hn)]
    exact ⟨natToChars_ne_nil _, dash_not_mem_natToChars _⟩
  have hmap := intercalate_dash_injective _ _ (hchunks gp1 h1) (hchunks gp2 h2) hdata
  clear hdata hne h
  induction gp1 generalizing gp2 with
  | nil =>
    rcases gp2 with _ | ⟨b, u⟩
    · rfl
    · simp at hmap
  | cons a t iht =>
    rcases gp2 with _ | ⟨b, u⟩
    · simp at hmap
    · simp only [List.map_cons, List.cons.injEq] at hmap
      have ha := h1 a (by simp)
      have hb := h2 b (by simp)
      have hab : a = b := by
        have := natToChars_injective a.natAbs b.natAbs (by
          rw [← intToChars_nonneg a ha, ← intToChars_nonneg b hb]
          exact hmap.1)
        omega
      have ht := iht u (fun x hx => h1 x (List.mem_cons_of_mem a hx))
        (fun x hx => h2 x (List.mem_cons_of_mem b hx)) hmap.2
      rw [hab, ht]

/-- C8: the canonical encoding is injective on sequences of non-negative
integers — two distinct sequences of non-negative integers always encode to
distinct strings, because the dash separator cannot occur inside the decimal
text of a non-negative integer. -/
theorem convertGraphicalPassword_injective (gp1 gp2 : List Int)
    (h1 : ∀ x ∈ gp1, 0 ≤ x) (h2 : ∀ x ∈ gp2, 0 ≤ x) (hne : gp1 ≠ gp2) :
    convertGraphicalPasswordToString gp1 ≠ convertGraphicalPasswordToString gp2 :=
  convert_injective_of_nonneg gp1 gp2 h1 h2 hne

/-- Witness for C8: `[1, 23]` and `[12, 3]` are distinct sequences of
non-negative integers, so their encodings differ. -/
theorem convertGraphicalPassword_injective_witness :
    convertGraphicalPasswordToString [1, 23] ≠ convertGraphicalPasswordToString [12, 3] :=
  convertGraphicalPassword_injective [1, 23] [12, 3] (by decide) (by decide) (by decide)

/-- C7: verifying a sequence against the digest obtained by hashing it
succeeds, and verifying any sequence against the digest of a sequence with a
different canonical encoding fails with an error. -/
theorem check_hash_spec (s1 s2 : List Int) (salt : Nat) :
    CheckGraphicalPasswordHash s1 (HashGraphicalPassword salt s1) = none ∧
    (convertGraphicalPasswordToString s1 ≠ convertGraphicalPasswordToString s2 →
      (CheckGraphicalPasswordHash s1 (HashGraphicalPassword salt s2)).isSome = true) := by
  constructor
  · simp [CheckGraphicalPasswordHash, HashGraphicalPassword, bcryptGenerateFromPassword,
      bcryptCompareHashAndPassword]
  · intro hne
    simp [CheckGraphicalPasswordHash, HashGraphicalPassword, bcryptGenerateFromPassword,
      bcryptCompareHashAndPassword, Ne.symm hne]

/-- Witness for C7: hashing `[1]` verifies against `[1]`, and `[2]` has a
different encoding, so verifying `[1]` against the digest of `[2]` fails. -/
theorem check_hash_spec_witness :
    CheckGraphicalPasswordHash [1] (HashGraphicalPassword 0 [1]) = none ∧
    (CheckGraphicalPasswordHash [1] (HashGraphicalPassword 0 [2])).isSome = true := by
  have hne : convertGraphicalPasswordToString [1] ≠ convertGraphicalPasswordToString [2] :=
    convert_injective_of_nonneg [1] [2] (by decide) (by decide) (by decide)
  have h := check_hash_spec [1] [2] 0
  exact ⟨h.1, h.2 hne⟩

/-! ## Theorems about the lockout race -/

/-- The race invariant holds initially. -/
theorem raceInv_init (threshold : Nat) (h : 0 < threshold) :
    RaceInv threshold (RaceState.init threshold) := by
  refine ⟨by simp [RaceState.init], ?_, rfl, ?_⟩
  · simp only [RaceState.init]
    constructor
    · intro hc
      simp at hc
    · intro hc
      omega
  · simp only [RaceState.init]
    rw [if_neg (by omega)]

/-- Each atomic critical section preserves the race invariant. -/
theorem raceInv_step (threshold : Nat) (s s' : RaceState)
    (hinv : RaceInv threshold s) (hstep : RaceStep threshold s s') :
    RaceInv threshold s' := by
  obtain ⟨hsum, hlock, hblocked, hevents⟩ := hinv
  cases hstep with
  | checkBlocked hp hl =>
    exfalso
    have := hlock.mp hl
    omega
  | checkClear hp hl =>
    exact ⟨by simp only []; omega, hlock, hblocked, hevents⟩
  | failUpdate hr =>
    have hbelow : ¬ threshold ≤ s.failedCount := by omega
    refine ⟨by simp only []; omega, ?_, hblocked, ?_⟩
    · simp only [Bool.or_eq_true, decide_eq_true_eq]
      constructor
      · rintro (hl | hc)
        · have := hlock.mp hl
          omega
        · exact hc
      · exact fun hc => Or.inr hc
    · simp only []
      rw [hevents, if_neg hbelow, Nat.zero_add]

/-- The race invariant holds in every state reachable from the initial one. -/
theorem raceInv_reachable (threshold : Nat) (h0 : 0 < threshold) (s : RaceState)
    (h : Relation.ReflTransGen (RaceStep threshold) (RaceState.init threshold) s) :
    RaceInv threshold s := by
  induction h with
  | refl => exact raceInv_init threshold h0
  | tail _ hstep ih => exact raceInv_step _ _ _ ih hstep

/-- C9: each per-username read-modify-write of a call runs as one atomic
critical section (the block check; the increment with its threshold compare
and lock), so in every complete interleaving of `threshold`-many concurrent
failed calls for one username — every run of the two-step calls in which no
call remains pending or ready — no update is lost: the final failed-attempt
count equals the threshold, the lock assignment has executed exactly once,
the account ends locked, and no call was turned away at its block check. -/
theorem race_exactly_one_lockout (threshold : Nat) (hpos : 0 < threshold)
    (s : RaceState)
    (hrun : Relation.ReflTransGen (RaceStep threshold) (RaceState.init threshold) s)
    (hpending : s.pending = 0) (hready : s.ready = 0) :
    s.failedCount = threshold ∧ s.lockEvents = 1 ∧ s.locked = true ∧
      s.blockedCalls = 0 := by
  obtain ⟨hsum, hlock, hblocked, hevents⟩ := raceInv_reachable threshold hpos s hrun
  have hcount : s.failedCount = threshold := by omega
  refine ⟨hcount, ?_, hlock.mpr (by omega), hblocked⟩
  rw [hevents, if_pos (by omega)]

/-- Witness for C9: with threshold 1, the complete two-step schedule of the
single call ends with count 1 and exactly one lock assignment. -/
theorem race_exactly_one_lockout_witness :
    (⟨0, 0, 0, 1, true, 1⟩ : RaceState).failedCount = 1 ∧
    (⟨0, 0, 0, 1, true, 1⟩ : RaceState).lockEvents = 1 ∧
    (⟨0, 0, 0, 1, true, 1⟩ : RaceState).locked = true := by
  have s1 : RaceStep 1 (RaceState.init 1) ⟨0, 1, 0, 0, false, 0⟩ :=
    RaceStep.checkClear (RaceState.init 1) (by decide) rfl
  have s2 : RaceStep 1 ⟨0, 1, 0, 0, false, 0⟩ ⟨0, 0, 0, 1, true, 1⟩ :=
    RaceStep.failUpdate ⟨0, 1, 0, 0, false, 0⟩ (by decide)
  have hrun : Relation.ReflTransGen (RaceStep 1) (RaceState.init 1)
      (⟨0, 0, 0, 1, true, 1⟩ : RaceState) :=
    Relation.ReflTransGen.tail (Relation.ReflTransGen.tail Relation.ReflTransGen.refl s1) s2
  have h := race_exactly_one_lockout 1 (by decide) _ hrun rfl rfl
  exact ⟨h.1, h.2.1, h.2.2.1⟩

end GPass
